import Mathlib

/-!
Verification of the lyrics scraper (`scraping/scrape_main.py`).

This file shallowly embeds the scraper's core pipeline:

* `fetch` — the body-read retry loop of `fetch(session, url)`.  The
  sequence of results of successive `await response.text()` calls is
  scripted as a list of `ReadOutcome`s (a transport mock); the model
  returns the loop's result together with the list of backoff sleep
  delays it performed, in order.
* `write` / `dirname` / `joinPath` — the file writer and the
  `os.path` helpers it relies on.  The filesystem is a list of
  (path, contents) pairs with Python-`dict`-like overwrite semantics.
* `get_lyrics_com_songs_for_album` / `get_lyrics_com_albums_for_artist`
  — the two listing extractors, modelled over pre-parsed row/div
  structures: a song row is `Option (Option (String × String))`
  (`none` = row whose `contents[1]` has no `strong` tag, `some none` =
  a `strong` tag with no `a` inside it — attribute access on `None`
  raises, `some (some (name, link))` = a full row); an album div is
  `Option (String × String)` (`none` = missing `h3`/`a`, which raises).
* `get_lyrics_com_album` — the album-level fan-out.  Concurrency is
  modelled by a schedule: the list of task indices in the order in
  which the song tasks reach their completion point.  Following
  `asyncio.gather` with `return_exceptions=False`, the first child
  failure is propagated to the awaiting parent immediately; since the
  event loop is stopped when the top-level coroutine fails
  (`run_until_complete` re-raises), the tasks scheduled after the
  failing one never complete in this run.
-/

namespace LyricsScrape

/-- Errors that can propagate out of the scraper's coroutines. -/
inductive Err where
  /-- an exception escaping the body-read loop of `fetch`:
  `isClientOS` records whether it was an `aiohttp` `ClientOSError`,
  `msg` its string representation. -/
  | raised (isClientOS : Bool) (msg : String)
  /-- the scripted transport ran out of attempts (never happens on
  well-formed scripts, which end in a successful read). -/
  | noMoreAttempts
  /-- `AttributeError`: attribute access on a `None` returned by a
  BeautifulSoup navigation (missing tag). -/
  | attributeError
  /-- `FileNotFoundError`: `os.makedirs` called on the empty string. -/
  | fileNotFound
deriving DecidableEq, Repr

/-- Outcome of one `await response.text()` attempt inside `fetch`. -/
inductive ReadOutcome where
  | ok (text : String)
  | err (isClientOS : Bool) (msg : String)
deriving DecidableEq, Repr

/-- Python's `'54' in str(err)`: the two-character sequence `54` occurs
somewhere in the error message. -/
def containsFiftyFour (msg : String) : Bool :=
  decide (['5', '4'] <:+: msg.toList)

/-- Model of `fetch`'s `while True` body-read loop.  `attempts` scripts
the successive results of `await response.text()`.  Returns the loop's
result and the list of `asyncio.sleep` delays performed, in order:
an `err` attempt that is a `ClientOSError` whose message contains
`'54'` sleeps 5 and retries; any other error propagates at once. -/
def fetch : List ReadOutcome → Except Err String × List Nat
  | [] => (Except.error Err.noMoreAttempts, [])
  | ReadOutcome.ok t :: _ => (Except.ok t, [])
  | ReadOutcome.err cos msg :: rest =>
    if cos && containsFiftyFour msg then
      ((fetch rest).1, 5 :: (fetch rest).2)
    else
      (Except.error (Err.raised cos msg), [])

/-- An attempt outcome that `fetch` treats as transient: a
`ClientOSError` whose message contains the substring `54`. -/
def isTransientOutcome : ReadOutcome → Bool
  | ReadOutcome.ok _ => false
  | ReadOutcome.err cos msg => cos && containsFiftyFour msg

/-- C2: if reading the response body fails with the connection-reset
class transient error `N` times (here: any list `errs` of transient
outcomes, `N = errs.length`) and then succeeds with `text`, `fetch`
returns `text` and performs exactly `N` backoff sleeps, each of the
fixed delay 5 — for every `N`, so there is no retry cap. -/
theorem fetch_retry_convergence (errs : List ReadOutcome) (text : String)
    (h : ∀ a ∈ errs, isTransientOutcome a = true) :
    fetch (errs ++ [ReadOutcome.ok text]) =
      (Except.ok text, List.replicate errs.length 5) := by
  induction errs with
  | nil => rfl
  | cons a rest ih =>
    have ha : isTransientOutcome a = true := h a (List.mem_cons_self a rest)
    have hrest : ∀ b ∈ rest, isTransientOutcome b = true :=
      fun b hb => h b (List.mem_cons_of_mem a hb)
    cases a with
    | ok t => simp [isTransientOutcome] at ha
    | err cos msg =>
      have ha' : (cos && containsFiftyFour msg) = true := ha
      simp only [List.cons_append, fetch, ha', if_pos, List.append_eq,
        ih hrest, List.length_cons, List.replicate_succ]

/-- C2 witness: two transient connection resets then success. -/
theorem fetch_retry_convergence_witness :
    fetch [ReadOutcome.err true "[Errno 54] Connection reset by peer",
           ReadOutcome.err true "[Errno 54] Connection reset by peer",
           ReadOutcome.ok "lyric text"] =
      (Except.ok "lyric text", [5, 5]) :=
  fetch_retry_convergence
    [ReadOutcome.err true "[Errno 54] Connection reset by peer",
     ReadOutcome.err true "[Errno 54] Connection reset by peer"]
    "lyric text" (by decide)

/-- C3: if the first body-read attempt fails with an error that is not
of the transient class, `fetch` propagates that error immediately, with
no sleep and no retry (the remaining scripted attempts are unused). -/
theorem fetch_nontransient_passthrough (cos : Bool) (msg : String)
    (rest : List ReadOutcome)
    (h : (cos && containsFiftyFour msg) = false) :
    fetch (ReadOutcome.err cos msg :: rest) =
      (Except.error (Err.raised cos msg), []) := by
  simp [fetch, h]

/-- C3 witness: a connection-refused error is not retried. -/
theorem fetch_nontransient_passthrough_witness :
    fetch [ReadOutcome.err true "[Errno 61] Connection refused",
           ReadOutcome.ok "unreached"] =
      (Except.error (Err.raised true "[Errno 61] Connection refused"), []) :=
  fetch_nontransient_passthrough true "[Errno 61] Connection refused"
    [ReadOutcome.ok "unreached"] (by decide)

/-- C8: `fetch` classifies a body-read failure as transient (sleep 5,
then behave as the loop on the remaining attempts) exactly when the
exception is a `ClientOSError` whose message contains the substring
`54` anywhere; in every other case it propagates the error at once
with no sleep.  The distinction is a substring match on the message,
not a check of an error code. -/
theorem fetch_transient_classification (cos : Bool) (msg : String)
    (rest : List ReadOutcome) :
    (fetch (ReadOutcome.err cos msg :: rest) =
        ((fetch rest).1, 5 :: (fetch rest).2)
      ↔ (cos = true ∧ ['5', '4'] <:+: msg.toList))
    ∧ ((cos = true ∧ ['5', '4'] <:+: msg.toList)
      ∨ fetch (ReadOutcome.err cos msg :: rest) =
          (Except.error (Err.raised cos msg), [])) := by
  by_cases hc : (cos && containsFiftyFour msg) = true
  · have hsem : cos = true ∧ ['5', '4'] <:+: msg.toList := by
      have := hc
      simp only [Bool.and_eq_true, containsFiftyFour,
        decide_eq_true_eq] at this
      exact this
    constructor
    · constructor
      · intro _; exact hsem
      · intro _; simp [fetch, hc]
    · exact Or.inl hsem
  · have hc' : (cos && containsFiftyFour msg) = false :=
      Bool.not_eq_true _ ▸ (by simpa using hc)
    have hsem : ¬(cos = true ∧ ['5', '4'] <:+: msg.toList) := by
      intro hand
      apply hc
      simp only [Bool.and_eq_true, containsFiftyFour, decide_eq_true_eq]
      exact hand
    constructor
    · constructor
      · intro heq
        exfalso
        have : fetch (ReadOutcome.err cos msg :: rest) =
            (Except.error (Err.raised cos msg), []) := by simp [fetch, hc']
        rw [this] at heq
        exact List.cons_ne_nil 5 (fetch rest).2 (congrArg Prod.snd heq).symm
      · intro hand; exact absurd hand hsem
    · exact Or.inr (by simp [fetch, hc'])

/-! ## Paths and the file writer -/

/-- The filesystem: a list of (path, contents) pairs, kept with
distinct paths via `dictInsert`. -/
abbrev FS := List (String × String)

/-- Python `dict` assignment `d[k] = v` on an association list whose
keys are distinct: replace the value at an existing key in place,
otherwise append the new pair at the end (insertion order). -/
def dictInsert : List (String × String) → String → String →
    List (String × String)
  | [], k, v => [(k, v)]
  | p :: rest, k, v =>
    if p.1 = k then (k, v) :: rest else p :: dictInsert rest k v

/-- Lookup of a key in an association list (first match). -/
def lookupFS : List (String × String) → String → Option String
  | [], _ => none
  | p :: rest, k => if p.1 = k then some p.2 else lookupFS rest k

/-- Does the string start with a `/`? (helper for `os.path.join`). -/
def startsWithSlash (s : String) : Bool :=
  match s.toList with
  | '/' :: _ => true
  | _ => false

/-- Does the string end with a `/`? (helper for `os.path.join`). -/
def endsWithSlash (s : String) : Bool :=
  match s.toList.getLast? with
  | some '/' => true
  | _ => false

/-- `os.path.join(a, b)` (posix, two arguments): an absolute `b`
replaces `a`; otherwise insert a `/` unless `a` is empty or already
ends with one. -/
def joinPath (a b : String) : String :=
  if startsWithSlash b then b
  else if a = "" || endsWithSlash a then a ++ b
  else a ++ "/" ++ b

/-- `os.path.dirname(p)` (posix): everything up to the last `/`;
trailing slashes are stripped unless the head is all slashes. -/
def dirname (p : String) : String :=
  let head := (p.toList.reverse.dropWhile (fun c => c ≠ '/')).reverse
  if head.isEmpty ∨ head.all (fun c => c = '/') then String.mk head
  else String.mk ((head.reverse.dropWhile (fun c => c = '/')).reverse)

/-- `os.makedirs(d, exist_ok=True)`: with the filesystem assumed
writable, the only failure mode is `d = ""`, on which `makedirs`
raises `FileNotFoundError`. -/
def makedirs (d : String) : Except Err Unit :=
  if d = "" then Except.error Err.fileNotFound else Except.ok ()

/-- `write(path, contents)`: `os.makedirs(os.path.dirname(path),
exist_ok=True)` first, then open the file for writing and write the
whole contents (silently overwriting an existing file). -/
def write (fs : FS) (path contents : String) : Except Err FS :=
  match makedirs (dirname path) with
  | Except.error e => Except.error e
  | Except.ok _ => Except.ok (dictInsert fs path contents)

/-- The path written by `get_and_write_lyrics_com_song`:
`os.path.join(directory, song_name + '.txt')`. -/
def song_file_path (directory songName : String) : String :=
  joinPath directory (songName ++ ".txt")

/-- The output directory `get_lyrics_com_artist` passes to
`get_lyrics_com_album` for the album named `name`:
`os.path.join(outputdir, name)`. -/
def album_output_dir (outputdir name : String) : String :=
  joinPath outputdir name

/-- C5 counterexample: with output root `out`, artist `X`, album
`Y Z` and song `S`, the written path is not `out/X/Y Z/S.txt`: the
artist identifier is not a component of the written path. -/
theorem path_construction_counterexample :
    song_file_path (album_output_dir "out" "Y Z") "S" ≠ "out/X/Y Z/S.txt" := by
  decide

/-- C5 amended: with output root `out`, album `Y Z` and song `S` the
written file path is exactly `out/Y Z/S.txt` — the album name, not the
artist identifier, is the component under the output root; literal
spaces are preserved and no slug-encoding is applied. -/
theorem path_construction_amended :
    song_file_path (album_output_dir "out" "Y Z") "S" = "out/Y Z/S.txt" := by
  decide

/-- C10: `write` succeeds exactly for paths with a non-empty
parent-directory component: on a bare filename (`dirname path = ""`)
the unconditional `makedirs` call on the empty string raises before
any file is opened, so nothing is written; otherwise the write
succeeds and stores the contents at the path. -/
theorem write_requires_parent_dir (fs : FS) (path contents : String) :
    (dirname path = "" →
      write fs path contents = Except.error Err.fileNotFound)
    ∧ (dirname path ≠ "" →
      write fs path contents = Except.ok (dictInsert fs path contents)) := by
  constructor
  · intro h; simp [write, makedirs, h]
  · intro h; simp [write, makedirs, h]

/-- C10 witness: the bare filename `S.txt` is rejected even on an
empty filesystem, while `d/S.txt` is written. -/
theorem write_requires_parent_dir_witness :
    write [] "S.txt" "la la" = Except.error Err.fileNotFound
    ∧ write [] "d/S.txt" "la la" = Except.ok [("d/S.txt", "la la")] :=
  ⟨(write_requires_parent_dir [] "S.txt" "la la").1 (by decide),
   (write_requires_parent_dir [] "d/S.txt" "la la").2 (by decide)⟩

/-! ## Listing extraction -/

/-- A `<tr>` row of the album page's song table, as the code navigates
it: `none` if `row.contents[1]` has no `strong` tag (the skip branch),
`some none` if the `strong` tag has no `a` inside it (so `strong.a` is
`None` and the attribute accesses raise), `some (some (name, link))`
for a full row. -/
abbrev SongRow := Option (Option (String × String))

/-- A `clearfix` div of the artist page: `none` if `div.h3` or
`div.h3.a` is missing (attribute access on `None` raises),
`some (name, href)` otherwise. -/
abbrev AlbumDiv := Option (String × String)

/-- Python `href.split('/')[-1]`: the characters after the last `/`
(the whole string if there is none). -/
def lastSlug (href : String) : String :=
  String.mk ((href.toList.reverse.takeWhile (fun c => c ≠ '/')).reverse)

/-- The `for row in page.find('tbody').find_all('tr')` loop of
`get_lyrics_com_songs_for_album`, carrying the `urls` dict: a row
without `strong` is skipped (with a printed notice), a `strong`
without `a` raises `AttributeError`, a full row does
`urls[name] = link`. -/
def songRowsLoop : List (String × String) → List SongRow →
    Except Err (List (String × String))
  | urls, [] => Except.ok urls
  | urls, none :: rest => songRowsLoop urls rest
  | _, some none :: _ => Except.error Err.attributeError
  | urls, some (some p) :: rest => songRowsLoop (dictInsert urls p.1 p.2) rest

/-- `get_lyrics_com_songs_for_album`, from the parsed rows of the
album page to the song name → link dict. -/
def get_lyrics_com_songs_for_album (rows : List SongRow) :
    Except Err (List (String × String)) :=
  songRowsLoop [] rows

/-- The `for div in album_divs` loop of
`get_lyrics_com_albums_for_artist`: `div.h3.a` is dereferenced
unconditionally — there is no skip branch — so a div without a
resolvable link raises `AttributeError`; a full div does
`albums[name] = url.split('/')[-1]`. -/
def albumDivsLoop : List (String × String) → List AlbumDiv →
    Except Err (List (String × String))
  | albums, [] => Except.ok albums
  | _, none :: _ => Except.error Err.attributeError
  | albums, some p :: rest =>
    albumDivsLoop (dictInsert albums p.1 (lastSlug p.2)) rest

/-- `get_lyrics_com_albums_for_artist`, from the parsed `clearfix`
divs of the artist page to the album name → slug dict. -/
def get_lyrics_com_albums_for_artist (divs : List AlbumDiv) :
    Except Err (List (String × String)) :=
  albumDivsLoop [] divs

/-- Did the computation succeed? -/
def isOkE {α : Type} : Except Err α → Bool
  | Except.ok _ => true
  | Except.error _ => false

/-- C6 counterexample: an album div lacking a resolvable link makes
`get_lyrics_com_albums_for_artist` raise instead of skipping the row,
and the song extractor happily produces an entry whose name is the
empty string. -/
theorem album_row_skip_counterexample :
    get_lyrics_com_albums_for_artist [none] = Except.error Err.attributeError
    ∧ get_lyrics_com_songs_for_album [some (some ("", "/x"))] =
        Except.ok [("", "/x")] := by
  constructor <;> rfl

/-- Helper for C6: song rows with no `strong` tag never make the song
extractor fail. -/
theorem songRowsLoop_ok_of_no_bare_strong (rows : List SongRow) :
    ∀ urls : List (String × String), (∀ r ∈ rows, r ≠ some none) →
      isOkE (songRowsLoop urls rows) = true := by
  induction rows with
  | nil => intro urls _; rfl
  | cons r rest ih =>
    intro urls h
    have hrest : ∀ x ∈ rest, x ≠ some none :=
      fun x hx => h x (List.mem_cons_of_mem r hx)
    match r with
    | none => exact ih urls hrest
    | some none => exact absurd rfl (h (some none) (List.mem_cons_self _ _))
    | some (some p) => exact ih (dictInsert urls p.1 p.2) hrest

/-- Helper for C6: any album div lacking a resolvable link makes the
album extractor loop raise. -/
theorem albumDivsLoop_error_of_none (divs : List AlbumDiv) :
    ∀ albums : List (String × String), none ∈ divs →
      albumDivsLoop albums divs = Except.error Err.attributeError := by
  induction divs with
  | nil => intro albums h; exact absurd h (List.not_mem_nil none)
  | cons d rest ih =>
    intro albums h
    match d with
    | none => rfl
    | some p =>
      have : none ∈ rest := by
        rcases List.mem_cons.1 h with h1 | h1
        · exact absurd h1.symm (Option.some_ne_none p)
        · exact h1
      exact ih (dictInsert albums p.1 (lastSlug p.2)) this

/-- C6 amended: the skip-on-missing-link policy lives in the song-list
extractor: a song row with no `strong` tag is skipped with a notice
(it leaves the dict untouched and never fails the crawl).  The
album-list extractor has no such guard: an album row lacking a
resolvable link raises and fails the crawl.  Entry names are taken
verbatim and are not checked for non-emptiness. -/
theorem row_skip_policy_amended :
    (∀ rows : List SongRow, (∀ r ∈ rows, r ≠ some none) →
      isOkE (get_lyrics_com_songs_for_album rows) = true)
    ∧ (∀ (urls : List (String × String)) (rest : List SongRow),
        songRowsLoop urls (none :: rest) = songRowsLoop urls rest)
    ∧ (∀ divs : List AlbumDiv, none ∈ divs →
        get_lyrics_com_albums_for_artist divs =
          Except.error Err.attributeError) := by
  refine ⟨fun rows h => songRowsLoop_ok_of_no_bare_strong rows [] h,
    fun urls rest => rfl,
    fun divs h => albumDivsLoop_error_of_none divs [] h⟩

/-- C6 amended witness: a row without lyrics is skipped while the rest
of the album is extracted; an artist page with one linkless album div
fails. -/
theorem row_skip_policy_amended_witness :
    isOkE (get_lyrics_com_songs_for_album
      [none, some (some ("A", "/a"))]) = true
    ∧ get_lyrics_com_albums_for_artist
        [some ("Floodland", "/artist/floodland-1"), none] =
      Except.error Err.attributeError :=
  ⟨row_skip_policy_amended.1 [none, some (some ("A", "/a"))] (by decide),
   row_skip_policy_amended.2.2 [some ("Floodland", "/artist/floodland-1"), none]
     (by decide)⟩

/-! ## Dict semantics of the song listing (C9) -/

/-- First-of-two-options fallback (`a` if it is `some`, else `b`). -/
def orElseO {α : Type} (a b : Option α) : Option α :=
  match a with
  | some x => some x
  | none => b

theorem orElseO_none {α : Type} (a : Option α) : orElseO a none = a := by
  cases a <;> rfl

theorem orElseO_some_absorb {α : Type} (a : Option α) (x : α) (b : Option α) :
    orElseO (orElseO a (some x)) b = orElseO a (some x) := by
  cases a <;> rfl

theorem getLast?_cons_eq_orElseO {α : Type} (x : α) (l : List α) :
    (x :: l).getLast? = orElseO l.getLast? (some x) := by
  induction l generalizing x with
  | nil => rfl
  | cons y ys ih =>
    rw [List.getLast?_cons_cons, ih y]
    cases hys : ys.getLast? <;> rfl

theorem lookupFS_dictInsert (d : List (String × String)) (k v k' : String) :
    lookupFS (dictInsert d k v) k' =
      if k' = k then some v else lookupFS d k' := by
  induction d with
  | nil =>
    by_cases h : k' = k
    · subst h; simp [dictInsert, lookupFS]
    · simp [dictInsert, lookupFS, h, Ne.symm h]
  | cons p rest ih =>
    by_cases hp : p.1 = k
    · subst hp
      by_cases h : k' = p.1
      · subst h; simp [dictInsert, lookupFS]
      · simp [dictInsert, lookupFS, h, Ne.symm h]
    · by_cases h : k' = k
      · subst h
        simp [dictInsert, lookupFS, hp, ih]
      · simp [dictInsert, lookupFS, hp, h, ih]

theorem mem_keys_dictInsert (d : List (String × String)) (k v x : String)
    (h : x ∈ (dictInsert d k v).map Prod.fst) :
    x = k ∨ x ∈ d.map Prod.fst := by
  induction d with
  | nil => simpa [dictInsert] using h
  | cons p rest ih =>
    by_cases hp : p.1 = k
    · simp only [dictInsert, hp, if_pos, List.map_cons, List.mem_cons] at h
      rcases h with h | h
      · exact Or.inl h
      · exact Or.inr (by simp [List.mem_cons, h])
    · simp only [dictInsert, hp, if_neg, not_false_iff, List.map_cons,
        List.mem_cons] at h
      rcases h with h | h
      · exact Or.inr (by simp [List.mem_cons, h])
      · rcases ih h with h1 | h1
        · exact Or.inl h1
        · exact Or.inr (by simp [List.mem_cons, h1])

theorem nodup_keys_dictInsert (d : List (String × String)) (k v : String)
    (h : (d.map Prod.fst).Nodup) :
    ((dictInsert d k v).map Prod.fst).Nodup := by
  induction d with
  | nil => simp [dictInsert]
  | cons p rest ih =>
    simp only [List.map_cons, List.nodup_cons] at h
    by_cases hp : p.1 = k
    · simp only [dictInsert, hp, if_pos, List.map_cons, List.nodup_cons]
      exact ⟨hp ▸ h.1, h.2⟩
    · simp only [dictInsert, hp, if_neg, not_false_iff, List.map_cons,
        List.nodup_cons]
      refine ⟨fun hmem => ?_, ih h.2⟩
      rcases mem_keys_dictInsert rest k v p.1 hmem with h1 | h1
      · exact hp h1
      · exact h.1 h1

/-- The links carried by the full rows named `n`, in page order. -/
def songLinks (n : String) (rows : List SongRow) : List String :=
  rows.filterMap (fun r =>
    match r with
    | some (some p) => if p.1 = n then some p.2 else none
    | _ => none)

/-- The link of the last row named `n` on the page, if any. -/
def lastLinkFor (n : String) (rows : List SongRow) : Option String :=
  (songLinks n rows).getLast?

theorem lastLinkFor_none_cons (n : String) (rest : List SongRow) :
    lastLinkFor n (none :: rest) = lastLinkFor n rest := rfl

theorem lastLinkFor_full_cons (n : String) (p : String × String)
    (rest : List SongRow) :
    lastLinkFor n (some (some p) :: rest) =
      if p.1 = n then orElseO (lastLinkFor n rest) (some p.2)
      else lastLinkFor n rest := by
  by_cases hp : p.1 = n
  · simp only [lastLinkFor, songLinks, List.filterMap_cons, hp, if_pos]
    exact getLast?_cons_eq_orElseO p.2 _
  · simp [lastLinkFor, songLinks, List.filterMap_cons, hp]

/-- Invariant of the song-row loop: on success, keys stay distinct and
each key's value is the link of its last row, falling back to the
incoming dict. -/
theorem songRowsLoop_spec (rows : List SongRow) :
    ∀ urls m : List (String × String),
      songRowsLoop urls rows = Except.ok m →
      (((urls.map Prod.fst).Nodup → (m.map Prod.fst).Nodup)
       ∧ ∀ n, lookupFS m n = orElseO (lastLinkFor n rows) (lookupFS urls n)) := by
  induction rows with
  | nil =>
    intro urls m h
    have hm : urls = m := by
      simpa [songRowsLoop] using h
    subst hm
    refine ⟨id, fun n => ?_⟩
    simp [lastLinkFor, songLinks, orElseO]
  | cons r rest ih =>
    intro urls m h
    match r with
    | none =>
      have := ih urls m h
      exact ⟨this.1, fun n => by
        rw [lastLinkFor_none_cons]; exact this.2 n⟩
    | some none => exact absurd h (by simp [songRowsLoop])
    | some (some p) =>
      have h' : songRowsLoop (dictInsert urls p.1 p.2) rest = Except.ok m := h
      have ihm := ih (dictInsert urls p.1 p.2) m h'
      refine ⟨fun hn => ihm.1 (nodup_keys_dictInsert urls p.1 p.2 hn),
        fun n => ?_⟩
      rw [lastLinkFor_full_cons, ihm.2 n, lookupFS_dictInsert]
      by_cases hp : p.1 = n
      · rw [if_pos hp, if_pos hp.symm, orElseO_some_absorb]
      · rw [if_neg hp, if_neg (fun hh : n = p.1 => hp hh.symm)]

/-- C9: the song links discovered on an album page are accumulated in
a dict keyed by song name, so on success `get_lyrics_com_songs_for_album`
yields distinct names — `get_lyrics_com_album` then launches at most
one song task per distinct name — and the link recorded for a name is
exactly the one of the last row bearing that name: an earlier
duplicate row's link is silently dropped. -/
theorem song_dict_last_wins (rows : List SongRow)
    (m : List (String × String))
    (h : get_lyrics_com_songs_for_album rows = Except.ok m) :
    (m.map Prod.fst).Nodup ∧ ∀ n, lookupFS m n = lastLinkFor n rows := by
  have hs := songRowsLoop_spec rows [] m h
  refine ⟨hs.1 (by simp), fun n => ?_⟩
  rw [hs.2 n]
  simp [lookupFS, orElseO_none]

/-- C9 witness: two rows named `A`; the dict keeps the later link. -/
theorem song_dict_last_wins_witness :
    (([("A", "/a2"), ("B", "/b")] : List (String × String)).map
        Prod.fst).Nodup
    ∧ lookupFS [("A", "/a2"), ("B", "/b")] "A" =
        lastLinkFor "A" [some (some ("A", "/a1")), some (some ("A", "/a2")),
          some (some ("B", "/b"))] :=
  ⟨(song_dict_last_wins
      [some (some ("A", "/a1")), some (some ("A", "/a2")),
        some (some ("B", "/b"))] [("A", "/a2"), ("B", "/b")] rfl).1,
   (song_dict_last_wins
      [some (some ("A", "/a1")), some (some ("A", "/a2")),
        some (some ("B", "/b"))] [("A", "/a2"), ("B", "/b")] rfl).2 "A"⟩

/-! ## Song tasks and the album-level fan-out -/

/-- `get_and_write_lyrics_com_song`: `outcome` is the result of
`get_lyrics_com_song` (fetch of the song page plus lyric extraction)
for this song; only after it succeeds with the full text is
`write(os.path.join(directory, song_name + '.txt'), text)` performed.
Returns the filesystem after the task and the error it raised, if
any. -/
def get_and_write_lyrics_com_song (fs : FS) (directory songName : String)
    (outcome : Except Err String) : FS × Option Err :=
  match outcome with
  | Except.error e => (fs, some e)
  | Except.ok text =>
    match write fs (song_file_path directory songName) text with
    | Except.error e => (fs, some e)
    | Except.ok fs2 => (fs2, none)

/-- One launched song task: the song's name and the scripted result of
fetching and extracting its page. -/
structure SongSpec where
  name : String
  outcome : Except Err String

/-- The `asyncio.gather` of `get_lyrics_com_album` over its song
tasks, with `return_exceptions=False`.  `sched` lists task indices in
the order in which the tasks reach their completion point.  The first
task to fail propagates its error to the awaiting parent immediately;
because the failed top-level coroutine stops the event loop, the tasks
scheduled after it never complete in this run. -/
def runTasks (directory : String) (songs : List SongSpec) :
    FS → List Nat → FS × Option Err
  | fs, [] => (fs, none)
  | fs, i :: rest =>
    match songs[i]? with
    | none => runTasks directory songs fs rest
    | some s =>
      match get_and_write_lyrics_com_song fs directory s.name s.outcome with
      | (fs2, none) => runTasks directory songs fs2 rest
      | (fs2, some e) => (fs2, some e)

/-- `get_lyrics_com_album` after its song listing has been fetched and
extracted: launch one `get_and_write_lyrics_com_song` task per entry
of `songUrls` against the fetch environment `env` (mapping a song link
to the fetched-and-extracted outcome), then gather them under the
completion schedule `sched`. -/
def get_lyrics_com_album (directory : String)
    (songUrls : List (String × String)) (env : String → Except Err String)
    (sched : List Nat) : FS × Option Err :=
  runTasks directory (songUrls.map (fun p => ⟨p.1, env p.2⟩)) [] sched

/-- The album listing of P3/P4: songs `{"A": "/a", "B": "/b", "C": "/c"}`. -/
def threeSongs : List (String × String) := [("A", "/a"), ("B", "/b"), ("C", "/c")]

/-- A fetch environment in which every song page resolves. -/
def lyricsAt (link : String) : Except Err String :=
  Except.ok ("lyrics" ++ link)

/-- A fetch environment in which song `B`'s extraction raises and the
other pages resolve. -/
def lyricsExceptB (link : String) : Except Err String :=
  if link = "/b" then Except.error Err.attributeError
  else Except.ok ("lyrics" ++ link)

/-- C7: if a song task fails at any step — fetch, extraction, or the
write itself — it leaves the filesystem exactly as it found it: no
output file, and no corrupt or partial one, is produced for that song
(the write happens only after the full text is in hand). -/
theorem song_failure_writes_nothing (fs : FS) (directory songName : String)
    (outcome : Except Err String) (e : Err)
    (h : (get_and_write_lyrics_com_song fs directory songName outcome).2 =
      some e) :
    (get_and_write_lyrics_com_song fs directory songName outcome).1 = fs := by
  cases outcome with
  | error e2 => rfl
  | ok text =>
    cases hw : write fs (song_file_path directory songName) text with
    | error e2 => simp [get_and_write_lyrics_com_song, hw]
    | ok fs2 =>
      exfalso
      simp [get_and_write_lyrics_com_song, hw] at h

/-- C7 witness: a song whose extraction raised writes nothing. -/
theorem song_failure_writes_nothing_witness :
    (get_and_write_lyrics_com_song [] "out" "B"
      (Except.error Err.attributeError)).1 = [] :=
  song_failure_writes_nothing [] "out" "B" (Except.error Err.attributeError)
    Err.attributeError rfl

/-- C4: with the three-song listing and every fetch succeeding,
`get_lyrics_com_album` produces exactly the files `out/A.txt`,
`out/B.txt` and `out/C.txt`, each holding the text extracted from the
corresponding song page, whatever the order in which the three song
tasks complete. -/
theorem crawlAlbum_fanout_complete (sched : List Nat)
    (h : sched.Perm [0, 1, 2]) :
    (get_lyrics_com_album "out" threeSongs lyricsAt sched).2 = none
    ∧ (get_lyrics_com_album "out" threeSongs lyricsAt sched).1.Perm
        [("out/A.txt", "lyrics/a"), ("out/B.txt", "lyrics/b"),
         ("out/C.txt", "lyrics/c")] := by
  have hmem : sched ∈ ([0, 1, 2] : List Nat).permutations' :=
    List.mem_permutations'.2 h
  have hall : ∀ s ∈ ([0, 1, 2] : List Nat).permutations',
      (get_lyrics_com_album "out" threeSongs lyricsAt s).2 = none
      ∧ (get_lyrics_com_album "out" threeSongs lyricsAt s).1.Perm
          [("out/A.txt", "lyrics/a"), ("out/B.txt", "lyrics/b"),
           ("out/C.txt", "lyrics/c")] := by decide
  exact hall sched hmem

/-- C4 witness: the schedule C, A, B. -/
theorem crawlAlbum_fanout_complete_witness :
    (get_lyrics_com_album "out" threeSongs lyricsAt [2, 0, 1]).2 = none
    ∧ (get_lyrics_com_album "out" threeSongs lyricsAt [2, 0, 1]).1.Perm
        [("out/A.txt", "lyrics/a"), ("out/B.txt", "lyrics/b"),
         ("out/C.txt", "lyrics/c")] :=
  crawlAlbum_fanout_complete [2, 0, 1] (by decide)

/-- C1 counterexample: with the three-song listing and `B`'s
extraction raising, the schedule on which `B` completes first makes
the gather fail while neither `out/A.txt` nor `out/C.txt` has been
written — the parent reacts to the first failure without waiting for
the remaining siblings, whose writes are lost when the loop stops. -/
theorem gather_failfast_counterexample :
    (get_lyrics_com_album "out" threeSongs lyricsExceptB [1, 0, 2]).2 =
        some Err.attributeError
    ∧ lookupFS
        (get_lyrics_com_album "out" threeSongs lyricsExceptB [1, 0, 2]).1
        "out/A.txt" = none
    ∧ lookupFS
        (get_lyrics_com_album "out" threeSongs lyricsExceptB [1, 0, 2]).1
        "out/C.txt" = none :=
  ⟨rfl, rfl, rfl⟩

/-- Gathering a schedule that starts with an error-free prefix first
runs that prefix. -/
theorem runTasks_append_of_ok (directory : String) (songs : List SongSpec)
    (pre : List Nat) :
    ∀ fs : FS, (runTasks directory songs fs pre).2 = none →
      ∀ rest : List Nat, runTasks directory songs fs (pre ++ rest) =
        runTasks directory songs (runTasks directory songs fs pre).1 rest := by
  induction pre with
  | nil => intro fs _ rest; rfl
  | cons i pre ih =>
    intro fs h rest
    cases hs : songs[i]? with
    | none =>
      simp only [List.cons_append, runTasks, hs]
      exact ih fs (by simpa [runTasks, hs] using h) rest
    | some s =>
      rcases hw : get_and_write_lyrics_com_song fs directory s.name s.outcome
        with ⟨fs2, oe⟩
      cases oe with
      | none =>
        simp only [List.cons_append, runTasks, hs, hw]
        exact ih fs2 (by simpa [runTasks, hs, hw] using h) rest
      | some e =>
        exfalso
        have : (runTasks directory songs fs (i :: pre)).2 = some e := by
          simp [runTasks, hs, hw]
        rw [h] at this
        exact Option.noConfusion this

/-- C1 amended: the aggregation is fail-fast, not wait-for-all: if the
tasks scheduled before index `i` all succeed and task `i` fails with
`e`, the gather completes with `e` at that point — the files written
by the earlier siblings are preserved, but the siblings scheduled
after the failure are abandoned (the result does not depend on `post`)
and their files are never written. -/
theorem gather_failfast_amended (directory : String) (songs : List SongSpec)
    (fs : FS) (pre post : List Nat) (i : Nat) (s : SongSpec) (e : Err)
    (hi : songs[i]? = some s) (he : s.outcome = Except.error e)
    (hpre : (runTasks directory songs fs pre).2 = none) :
    runTasks directory songs fs (pre ++ i :: post) =
      ((runTasks directory songs fs pre).1, some e) := by
  rw [runTasks_append_of_ok directory songs pre fs hpre (i :: post)]
  simp [runTasks, hi, get_and_write_lyrics_com_song, he]

/-- C1 amended witness: `A` completes first and its file survives;
then `B` fails, the gather returns `B`'s error at once, and the
scheduled-after task `C` is abandoned. -/
theorem gather_failfast_amended_witness :
    runTasks "out"
      [⟨"A", Except.ok "lyrics/a"⟩, ⟨"B", Except.error Err.attributeError⟩,
        ⟨"C", Except.ok "lyrics/c"⟩] [] ([0] ++ 1 :: [2]) =
      ((runTasks "out"
        [⟨"A", Except.ok "lyrics/a"⟩, ⟨"B", Except.error Err.attributeError⟩,
          ⟨"C", Except.ok "lyrics/c"⟩] [] [0]).1, some Err.attributeError) :=
  gather_failfast_amended "out"
    [⟨"A", Except.ok "lyrics/a"⟩, ⟨"B", Except.error Err.attributeError⟩,
      ⟨"C", Except.ok "lyrics/c"⟩] [] [0] [2] 1
    ⟨"B", Except.error Err.attributeError⟩ Err.attributeError rfl rfl (by decide)

end LyricsScrape
